import Mathlib

/-!
Verification of the docs-to-quiz repository: a shallow embedding of the
text-extraction dispatch (`src/utils/fileProcessor.ts` and its two
pdfjs-based variants) and of the quiz-generation pipeline
(`QuizGenerator.generateQuiz`), with theorems settling the specification
claims about them.

Strings from the JavaScript side are modelled as `List Char`. JavaScript
numbers that occur in parsed JSON are modelled as rationals (`Rat`), which
represents every number the claims touch exactly. Platform primitives
(`String.prototype.trim`, `JSON.parse`, the regex match, `fetch`) are
modelled from their standard semantics, as noted at each definition.
-/

/-- Character set removed by `String.prototype.trim` in JavaScript:
WhiteSpace plus LineTerminator code points. -/
def isJsWs (c : Char) : Bool :=
  let n := c.toNat
  (9 ≤ n && n ≤ 13) || n == 32 || n == 160 || n == 0x1680 ||
  (0x2000 ≤ n && n ≤ 0x200A) || n == 0x2028 || n == 0x2029 ||
  n == 0x202F || n == 0x205F || n == 0x3000 || n == 0xFEFF

/-- Model of `s.trim()` on a JavaScript string: remove leading and trailing
whitespace characters. -/
def jsTrim (l : List Char) : List Char :=
  List.dropWhile isJsWs (List.rdropWhile isJsWs l)

/-- Model of `s.toLowerCase()` (ASCII-accurate, which covers every name the
claims use). -/
def jsToLower (l : List Char) : List Char :=
  l.map Char.toLower

/-- Model of `s.toUpperCase()` (ASCII-accurate). -/
def jsToUpper (l : List Char) : List Char :=
  l.map Char.toUpper

/-- Left curly brace character, written via its code point. -/
def lcurly : Char := Char.ofNat 123

/-- Right curly brace character, written via its code point. -/
def rcurly : Char := Char.ofNat 125

/-- JSON values as produced by `JSON.parse`: null, booleans, numbers
(modelled as rationals), strings, arrays and objects (field list in textual
order). -/
inductive Json where
  | null : Json
  | bool (b : Bool) : Json
  | num (q : Rat) : Json
  | str (s : List Char) : Json
  | arr (elems : List Json) : Json
  | obj (fields : List (List Char × Json)) : Json

/-- JavaScript truthiness of a JSON value: empty string, the number 0,
`false` and `null` are falsy, everything else is truthy. -/
def Json.truthy : Json → Bool
  | .null => false
  | .bool b => b
  | .num q => !(q == 0)
  | .str s => !s.isEmpty
  | .arr _ => true
  | .obj _ => true

/-- Field access `o[k]` on a parsed JSON object. `JSON.parse` keeps the last
occurrence of a duplicated key, hence the reversed lookup. Property access
on a non-object value is modelled as the field being absent. -/
def Json.getField : Json → List Char → Option Json
  | .obj fs, k => List.lookup k fs.reverse
  | _, _ => none

/-- Element access `a?.[0]` on a parsed JSON value, absent when the value is
not a non-empty array. -/
def Json.index0 : Json → Option Json
  | .arr l => l.head?
  | _ => none

/-- JavaScript truthiness of a possibly absent (`undefined`) value. -/
def truthyOpt : Option Json → Bool
  | none => false
  | some j => j.truthy

/-! The JSON parser below models the `JSON.parse` builtin on the textual
JSON grammar: insignificant whitespace, `null`, `true`, `false`, numbers,
strings with escape sequences, arrays and objects. Recursion is driven by a
fuel argument that the top-level entry point makes large enough for any
input it is asked to parse. -/

/-- Whitespace insignificant in JSON text (space, tab, newline, return). -/
def isJsonWs (c : Char) : Bool :=
  c == ' ' || c == '\t' || c == '\n' || c == '\r'

/-- Drop insignificant JSON whitespace. -/
def skipWs (s : List Char) : List Char :=
  List.dropWhile isJsonWs s

/-- Value of a hexadecimal digit, if the character is one. -/
def hexVal (c : Char) : Option Nat :=
  if '0' ≤ c && c ≤ '9' then some (c.toNat - 48)
  else if 'a' ≤ c && c ≤ 'f' then some (c.toNat - 87)
  else if 'A' ≤ c && c ≤ 'F' then some (c.toNat - 55)
  else none

/-- Single-character JSON string escapes. -/
def escChar (c : Char) : Option Char :=
  if c = '"' then some '"'
  else if c = '\\' then some '\\'
  else if c = '/' then some '/'
  else if c = 'b' then some (Char.ofNat 8)
  else if c = 'f' then some (Char.ofNat 12)
  else if c = 'n' then some '\n'
  else if c = 'r' then some '\r'
  else if c = 't' then some '\t'
  else none

/-- Parse the body of a JSON string after the opening quote, returning the
decoded characters and the rest of the input. Unescaped control characters
are rejected, as `JSON.parse` rejects them. -/
def parseStringAux : List Char → Option (List Char × List Char)
  | [] => none
  | c :: cs =>
    if c = '"' then some ([], cs)
    else if c = '\\' then
      match cs with
      | [] => none
      | e :: cs2 =>
        if e = 'u' then
          match cs2 with
          | a :: b :: c3 :: d :: cs3 =>
            match hexVal a, hexVal b, hexVal c3, hexVal d with
            | some ha, some hb, some hc, some hd =>
              match parseStringAux cs3 with
              | some (r, rest) =>
                some (Char.ofNat (((ha * 16 + hb) * 16 + hc) * 16 + hd) :: r, rest)
              | none => none
            | _, _, _, _ => none
          | _ => none
        else
          match escChar e with
          | some ec =>
            match parseStringAux cs2 with
            | some (r, rest) => some (ec :: r, rest)
            | none => none
          | none => none
    else if c.toNat < 32 then none
    else
      match parseStringAux cs with
      | some (r, rest) => some (c :: r, rest)
      | none => none

/-- Numeric value of a list of decimal digit characters. -/
def digitsToNat (ds : List Char) : Nat :=
  ds.foldl (fun a c => 10 * a + (c.toNat - 48)) 0

/-- Decimal digit test. -/
def isDigit (c : Char) : Bool :=
  '0' ≤ c && c ≤ '9'

/-- Parse a JSON number (sign, integer part without leading zeros,
optional fraction, optional exponent) into a rational. -/
def parseNumber (s : List Char) : Option (Rat × List Char) :=
  let (neg, s1) :=
    match s with
    | '-' :: r => (true, r)
    | _ => (false, s)
  let intPart : Option (List Char × List Char) :=
    match s1 with
    | '0' :: r =>
      match r with
      | d :: _ => if isDigit d then none else some (['0'], r)
      | [] => some (['0'], [])
    | d :: _ =>
      if isDigit d then some (s1.takeWhile isDigit, s1.dropWhile isDigit)
      else none
    | [] => none
  match intPart with
  | none => none
  | some (ids, s2) =>
    let (fds, s3) :=
      match s2 with
      | '.' :: r =>
        match r with
        | d :: _ => if isDigit d then (r.takeWhile isDigit, r.dropWhile isDigit) else ([], s2)
        | [] => ([], s2)
      | _ => ([], s2)
    -- a dot not followed by a digit is a parse error in JSON
    match s3 with
    | '.' :: _ => none
    | _ =>
      let expPart : Option (Bool × List Char × List Char) :=
        match s3 with
        | e :: r =>
          if e = 'e' || e = 'E' then
            let (eneg, r2) :=
              match r with
              | '-' :: r3 => (true, r3)
              | '+' :: r3 => (false, r3)
              | _ => (false, r)
            match r2 with
            | d :: _ => if isDigit d then some (eneg, r2.takeWhile isDigit, r2.dropWhile isDigit) else none
            | [] => none
          else some (false, [], s3)
        | [] => some (false, [], [])
      match expPart with
      | none => none
      | some (eneg, eds, rest) =>
        let mantissa : Int :=
          (if neg then -1 else 1) * Int.ofNat (digitsToNat ids * 10 ^ fds.length + digitsToNat fds)
        let e := digitsToNat eds
        let value : Rat :=
          if eneg then mkRat mantissa (10 ^ fds.length * 10 ^ e)
          else mkRat (mantissa * Int.ofNat (10 ^ e)) (10 ^ fds.length)
        some (value, rest)

mutual

/-- Parse one JSON value; the fuel argument bounds recursion depth. -/
def parseValue : Nat → List Char → Option (Json × List Char)
  | 0, _ => none
  | Nat.succ f, s =>
    match skipWs s with
    | [] => none
    | c :: cs =>
      if c = '"' then
        match parseStringAux cs with
        | some (str, rest) => some (Json.str str, rest)
        | none => none
      else if c = '[' then
        match skipWs cs with
        | ']' :: rest => some (Json.arr [], rest)
        | cs2 =>
          match parseElems f cs2 with
          | some (vs, rest) => some (Json.arr vs, rest)
          | none => none
      else if c = lcurly then
        match skipWs cs with
        | c2 :: rest2 =>
          if c2 = rcurly then some (Json.obj [], rest2)
          else
            match parseMembers f (c2 :: rest2) with
            | some (fs, rest) => some (Json.obj fs, rest)
            | none => none
        | [] => none
      else if c = 't' then
        match cs with
        | 'r' :: 'u' :: 'e' :: rest => some (Json.bool true, rest)
        | _ => none
      else if c = 'f' then
        match cs with
        | 'a' :: 'l' :: 's' :: 'e' :: rest => some (Json.bool false, rest)
        | _ => none
      else if c = 'n' then
        match cs with
        | 'u' :: 'l' :: 'l' :: rest => some (Json.null, rest)
        | _ => none
      else
        match parseNumber (c :: cs) with
        | some (q, rest) => some (Json.num q, rest)
        | none => none

/-- Parse the comma-separated elements of a non-empty JSON array, up to and
including the closing bracket. -/
def parseElems : Nat → List Char → Option (List Json × List Char)
  | 0, _ => none
  | Nat.succ f, s =>
    match parseValue f s with
    | none => none
    | some (v, r) =>
      match skipWs r with
      | ',' :: r2 =>
        match parseElems f r2 with
        | some (vs, r3) => some (v :: vs, r3)
        | none => none
      | ']' :: r2 => some ([v], r2)
      | _ => none

/-- Parse the comma-separated members of a non-empty JSON object, up to and
including the closing brace. -/
def parseMembers : Nat → List Char → Option (List (List Char × Json) × List Char)
  | 0, _ => none
  | Nat.succ f, s =>
    match skipWs s with
    | '"' :: cs =>
      match parseStringAux cs with
      | some (key, r1) =>
        match skipWs r1 with
        | ':' :: r2 =>
          match parseValue f r2 with
          | some (v, r3) =>
            match skipWs r3 with
            | ',' :: r4 =>
              match parseMembers f r4 with
              | some (fs, r5) => some ((key, v) :: fs, r5)
              | none => none
            | c :: r4 => if c = rcurly then some ([(key, v)], r4) else none
            | [] => none
          | none => none
        | _ => none
      | none => none
    | _ => none

end

/-- Model of `JSON.parse`: parse one value and require only whitespace to
remain. -/
def jsonParse (s : List Char) : Option Json :=
  match parseValue (2 * s.length + 2) s with
  | some (j, rest) => if (skipWs rest).isEmpty then some j else none
  | none => none

/-! Model of the extractor in `src/utils/fileProcessor.ts` (the pdf-lib
based variant). The underlying parsing libraries are supplied as an
environment: the outcome of `PDFDocument.load`, of
`mammoth.extractRawText` and of the `FileReader` read. -/

namespace FileProcessor

/-- Outcome of a successful `PDFDocument.load`: the texts of the PDF form
text fields in document order, and the sizes of the pages in order (the
page count is the length of that list). Page dimensions are modelled as
naturals. -/
structure PdfLibDoc where
  textFieldTexts : List (List Char)
  pageSizes : List (Nat × Nat)

/-- Message of the catch-all rethrow in `extractTextFromFile`. -/
def genericFailMsg : List Char :=
  "Failed to extract text from file. Please check the file format and try again.".toList

/-- Message thrown when loading or reading the PDF fails. -/
def pdfFailMsg : List Char :=
  "Failed to process PDF file. Please try converting it to a text file first.".toList

/-- Message thrown when DOCX extraction fails. -/
def docxFailMsg : List Char :=
  "Failed to process DOCX file. Please check the file format.".toList

/-- Fixed sentence returned when even the placeholder text trims to empty. -/
def noTextFallback : List Char :=
  "PDF content extracted successfully but no readable text found.".toList

/-- One line of the placeholder text: page number and page dimensions. -/
def pageInfoLine (i : Nat) (wh : Nat × Nat) : List Char :=
  ("Page ".toList) ++ (toString (i + 1)).toList ++ (" content (".toList) ++
  (toString wh.1).toList ++ ("x".toList) ++ (toString wh.2).toList ++ ("). ".toList)

/-- Placeholder text built when no form text-field text was found: the page
count followed by one line per page for at most the first 5 pages. -/
def placeholderText (doc : PdfLibDoc) : List Char :=
  ("PDF document with ".toList) ++ (toString doc.pageSizes.length).toList ++ (" pages. ".toList)
  ++ List.flatten (((doc.pageSizes.take 5).enum).map (fun p => pageInfoLine p.1 p.2))

/-- Model of `extractTextFromPDF` in `fileProcessor.ts`: concatenate the
form text-field texts each followed by a space; if that trims to empty,
replace it by the placeholder text; return the trimmed result, or the
fixed fallback sentence if the trimmed result is empty. A load failure
surfaces as the PDF failure message. -/
def extractTextFromPDF (loaded : Except (List Char) PdfLibDoc) : Except (List Char) (List Char) :=
  match loaded with
  | .error _ => .error pdfFailMsg
  | .ok doc =>
    let extracted0 := List.flatten (doc.textFieldTexts.map (fun t => t ++ [' ']))
    let extractedText := if (jsTrim extracted0).isEmpty then placeholderText doc else extracted0
    let t := jsTrim extractedText
    .ok (if t.isEmpty then noTextFallback else t)

/-- Model of `extractTextFromDOCX`: trim the raw text produced by
`mammoth.extractRawText`; a library failure surfaces as the DOCX failure
message. -/
def extractTextFromDOCX (raw : Except (List Char) (List Char)) : Except (List Char) (List Char) :=
  match raw with
  | .error _ => .error docxFailMsg
  | .ok v => .ok (jsTrim v)

/-- Model of `extractTextFromTXT`: trim the text read by `FileReader`; a
read error rejects with the fixed message. -/
def extractTextFromTXT (readResult : Except (List Char) (List Char)) : Except (List Char) (List Char) :=
  match readResult with
  | .error _ => .error ("Failed to read text file".toList)
  | .ok t => .ok (jsTrim t)

/-- The three format readers the dispatch can select. -/
inductive FileKind where
  | pdf : FileKind
  | docx : FileKind
  | txt : FileKind

/-- Priority rank of a format in the dispatch chain (lower is earlier). -/
def FileKind.rank : FileKind → Nat
  | .pdf => 0
  | .docx => 1
  | .txt => 2

/-- Declared MIME type matched for a format in the dispatch chain. -/
def FileKind.mime : FileKind → List Char
  | .pdf => "application/pdf".toList
  | .docx => "application/vnd.openxmlformats-officedocument.wordprocessingml.document".toList
  | .txt => "text/plain".toList

/-- Filename suffix matched for a format in the dispatch chain. -/
def FileKind.ext : FileKind → List Char
  | .pdf => ".pdf".toList
  | .docx => ".docx".toList
  | .txt => ".txt".toList

/-- Model of `fileName.endsWith(suffix)`. -/
def endsWithL (suf l : List Char) : Bool := decide (suf <:+ l)

/-- The dispatch chain of `extractTextFromFile` (lines 9 to 20): each
branch matches the declared MIME type or the lowercased filename suffix,
in the order PDF, DOCX, TXT. -/
def selectReader (ftype fname : List Char) : Option FileKind :=
  let fileName := jsToLower fname
  if ftype == FileKind.mime .pdf || endsWithL (FileKind.ext .pdf) fileName then some .pdf
  else if ftype == FileKind.mime .docx || endsWithL (FileKind.ext .docx) fileName then some .docx
  else if ftype == FileKind.mime .txt || endsWithL (FileKind.ext .txt) fileName then some .txt
  else none

/-- The extractor library outcomes supplied by the platform. -/
structure FileEnv where
  pdfDoc : Except (List Char) PdfLibDoc
  docxRaw : Except (List Char) (List Char)
  txtRead : Except (List Char) (List Char)

/-- Model of `extractTextFromFile`: dispatch on MIME type and filename
suffix; an unmatched input throws the unsupported-type error inside the
try block; the surrounding catch replaces every failure by the generic
failure message. -/
def extractTextFromFile (env : FileEnv) (ftype fname : List Char) : Except (List Char) (List Char) :=
  let inner : Except (List Char) (List Char) :=
    match selectReader ftype fname with
    | some .pdf => extractTextFromPDF env.pdfDoc
    | some .docx => extractTextFromDOCX env.docxRaw
    | some .txt => extractTextFromTXT env.txtRead
    | none => .error (("Unsupported file type: ".toList) ++ ftype)
  match inner with
  | .ok t => .ok t
  | .error _ => .error genericFailMsg

end FileProcessor

/-! Model of the pdfjs-based extractor variants (`part_000` and
`part_001`): the text layer is read page by page. A page is the list of
its text item strings. -/

namespace PdfJs

/-- Text of one page: the item strings joined by single spaces, modelling
`textContent.items.map(item.str).join(" ")`. -/
def pageText (items : List (List Char)) : List Char :=
  List.intercalate (" ".toList) items

/-- Model of the pdfjs `extractTextFromPDF`: iterate the pages in document
order, appending each page text followed by a newline, then trim the
result. -/
def extractTextFromPDF (pages : List (List (List Char))) : List Char :=
  jsTrim (pages.foldl (fun acc pg => acc ++ pageText pg ++ ['\n']) [])

end PdfJs

/-! Model of the quiz generation pipeline in `QuizGenerator.generateQuiz`
(part_002, lines 48 to 150). The extracted document text is the input, the
network is an oracle from the request payload to the HTTP response, and the
returned pair carries the result together with the list of requests that
were issued. -/

/-- Error kinds of the pipeline, one per throw site, named as in the
specification: `emptyInput` for the extracted-text precondition,
`networkFailure` for a non-ok response status (carrying status and status
text), `malformedResponse` for a missing reply text or an unparsable reply,
`validationFailure` for a reply that fails the batch shape validation. -/
inductive QuizError where
  | emptyInput : QuizError
  | networkFailure (status : Nat) (statusText : List Char) : QuizError
  | malformedResponse : QuizError
  | validationFailure : QuizError

/-- Shape check of one parsed question (lines 136 to 139): truthy
`question`, `options` an array of length 4, `correctAnswerIndex` of number
type, truthy `hint`. Property access on a null or primitive element is
modelled as the field being absent (a null element would raise a TypeError
in JavaScript; either way the batch is rejected at the validation stage). -/
def questionOk (q : Json) : Bool :=
  truthyOpt (q.getField ("question".toList)) &&
  (match q.getField ("options".toList) with
   | some (.arr l) => l.length == 4
   | _ => false) &&
  (match q.getField ("correctAnswerIndex".toList) with
   | some (.num _) => true
   | _ => false) &&
  truthyOpt (q.getField ("hint".toList))

/-- Validation of the parsed reply (lines 131 to 143): it must be a
non-empty array whose every element passes `questionOk`; otherwise the
whole batch is rejected at the validation stage. -/
def validateQuestions (j : Json) : Except QuizError (List Json) :=
  match j with
  | .arr qs =>
    if qs.length == 0 then .error .validationFailure
    else if qs.all questionOk then .ok qs
    else .error .validationFailure
  | _ => .error .validationFailure

/-- Drop characters until the first occurrence of `c`, returning the suffix
starting at that occurrence. -/
def dropBefore (c : Char) : List Char → Option (List Char)
  | [] => none
  | x :: xs => if x = c then some (x :: xs) else dropBefore c xs

/-- Model of `generatedText.match(/\[[\s\S]*\]/)`: the first match of the
greedy pattern runs from the first opening bracket to the last closing
bracket of the whole string, and exists when some closing bracket follows
the first opening bracket. -/
def extractArr (s : List Char) : Option (List Char) :=
  match dropBefore '[' s with
  | none => none
  | some t =>
    match dropBefore ']' t.reverse with
    | none => none
    | some u => some u.reverse

/-- Model of `data.candidates?.[0]?.content?.parts?.[0]?.text` on the parsed
response body. -/
def candidateText (body : Json) : Option Json :=
  (((((body.getField ("candidates".toList)).bind Json.index0).bind
      (fun j => j.getField ("content".toList))).bind
      (fun j => j.getField ("parts".toList))).bind Json.index0).bind
      (fun j => j.getField ("text".toList))

/-- Handling of the reply text (lines 124 to 143): locate the JSON-array
substring, parse it, validate it. -/
def handleGeneratedText (s : List Char) : Except QuizError (List Json) :=
  match extractArr s with
  | none => .error .malformedResponse
  | some sub =>
    match jsonParse sub with
    | none => .error .malformedResponse
    | some j => validateQuestions j

/-- Handling of the parsed response body (lines 117 to 143): extract the
reply text, fail when it is absent or falsy, then handle it. A truthy
non-string reply would make the `.match` call throw; it is modelled as a
failure at the same response-handling stage. -/
def handleBody (body : Json) : Except QuizError (List Json) :=
  let gt := candidateText body
  if truthyOpt gt then
    match gt with
    | some (.str s) => handleGeneratedText s
    | _ => .error .malformedResponse
  else .error .malformedResponse

/-- Quiz settings record, as used by the prompt construction. -/
structure QuizSettingsData where
  questionCount : Nat
  difficulty : List Char
  questionType : List Char

/-- An HTTP response as seen through the fetch API: status, status text and
parsed JSON body. -/
structure HttpResponse where
  status : Nat
  statusText : List Char
  body : Json

/-- Model of `response.ok`: the status is in the inclusive range 200 to
299. -/
def HttpResponse.isOk (r : HttpResponse) : Bool :=
  200 ≤ r.status && r.status < 300

/-- The instruction prompt built from the settings and the extracted text
(lines 55 to 83), transcribed from the template literal. -/
def systemPrompt (settings : QuizSettingsData) (extractedText : List Char) : List Char :=
  ("\nYou are an AI quiz generator.\n\nGiven the following educational document content and settings:\n- Number of Questions: ".toList)
  ++ (toString settings.questionCount).toList
  ++ ("\n- Difficulty: ".toList) ++ settings.difficulty
  ++ ("\n- Question Type: ".toList) ++ jsToUpper settings.questionType
  ++ ("\n\nGenerate high-quality MCQ questions ONLY based on the document content.\n\nReturn an array of questions in the following JSON format:\n[\n  \x7b\n    \"question\": \"What is ...?\",\n    \"options\": [\"A\", \"B\", \"C\", \"D\"],\n    \"correctAnswerIndex\": 2,\n    \"hint\": \"It\x27s the component responsible for ...\"\n  \x7d\n]\n\nImportant: \n- Return ONLY valid JSON array, no extra text\n- Make sure questions are directly related to the document content\n- Provide clear, unambiguous options\n- Hints should be helpful but not give away the answer\n\nDocument Content:\n".toList)
  ++ extractedText ++ ("\n".toList)

/-- Model of the quiz generation pipeline: precondition check on the
trimmed extracted text, one request to the network oracle, status check,
then body handling. The second component lists the requests issued, in
order. -/
def generateQuiz (settings : QuizSettingsData) (extractedText : List Char)
    (net : List Char → HttpResponse) : Except QuizError (List Json) × List (List Char) :=
  if (jsTrim extractedText).isEmpty then (.error .emptyInput, [])
  else
    let prompt := systemPrompt settings extractedText
    let resp := net prompt
    let result :=
      if !resp.isOk then .error (.networkFailure resp.status resp.statusText)
      else handleBody resp.body
    (result, [prompt])

/-! Helper lemmas about the trimming primitive. -/

/-- Splitting a list into its right-trimmed part and the trimmed-off tail. -/
theorem rdropWhile_append_rtakeWhile {α : Type} (p : α → Bool) (l : List α) :
    List.rdropWhile p l ++ List.rtakeWhile p l = l := by
  rw [List.rdropWhile, List.rtakeWhile, ← List.reverse_append,
    List.takeWhile_append_dropWhile, List.reverse_reverse]

/-- A trim result is empty exactly when every character is whitespace. -/
theorem jsTrim_eq_nil_iff {l : List Char} : jsTrim l = [] ↔ ∀ c ∈ l, isJsWs c = true := by
  unfold jsTrim
  rw [List.dropWhile_eq_nil_iff]
  constructor
  · intro h c hc
    rw [← rdropWhile_append_rtakeWhile isJsWs l] at hc
    rcases List.mem_append.mp hc with h1 | h2
    · exact h c h1
    · exact List.mem_rtakeWhile_imp h2
  · intro h c hc
    exact h c ((List.rdropWhile_prefix isJsWs l).subset hc)

/-- Appending whitespace on the right does not change the right-trim. -/
theorem rdropWhile_append_ws {α : Type} (p : α → Bool) (x : List α) :
    ∀ w : List α, (∀ c ∈ w, p c = true) → List.rdropWhile p (x ++ w) = List.rdropWhile p x := by
  intro w
  induction w using List.reverseRecOn with
  | nil => intro _; simp
  | append_singleton w a ih =>
    intro hw
    rw [← List.append_assoc,
      List.rdropWhile_concat_pos _ _ _ (hw a (List.mem_append_right _ (List.mem_singleton_self a)))]
    exact ih fun c hc => hw c (List.mem_append_left _ hc)

/-- Appending whitespace on the right does not change the trim. -/
theorem jsTrim_append_ws {w : List Char} (hw : ∀ c ∈ w, isJsWs c = true) (x : List Char) :
    jsTrim (x ++ w) = jsTrim x := by
  unfold jsTrim
  rw [rdropWhile_append_ws _ _ _ hw]

/-- A suffix of a list with no trailing `p`-element has no trailing
`p`-element either. -/
theorem rdropWhile_eq_self_of_suffix {α : Type} {p : α → Bool} {s m : List α}
    (hs : s <:+ m) (hm : List.rdropWhile p m = m) : List.rdropWhile p s = s := by
  rcases eq_or_ne s [] with rfl | hne
  · simp
  · rw [List.rdropWhile_eq_self_iff]
    intro hl
    obtain ⟨t, rfl⟩ := hs
    have hmne : t ++ s ≠ [] := fun hh => hne (List.append_eq_nil.mp hh).2
    have h2 := (List.rdropWhile_eq_self_iff.mp hm) hmne
    have h3 : (t ++ s).getLast hmne = s.getLast hl := by
      have := List.getLast?_append_of_ne_nil t hl
      rw [List.getLast?_eq_getLast _ hmne, List.getLast?_eq_getLast _ hl] at this
      exact Option.some.inj this
    rwa [h3] at h2

/-- Trimming is idempotent. -/
theorem jsTrim_idem (l : List Char) : jsTrim (jsTrim l) = jsTrim l := by
  unfold jsTrim
  rw [rdropWhile_eq_self_of_suffix (List.dropWhile_suffix isJsWs)
    (List.rdropWhile_idempotent isJsWs l)]
  exact List.dropWhile_idempotent _ _

/-- A list containing a non-whitespace character has a non-empty trim. -/
theorem jsTrim_ne_nil {l : List Char} {c : Char} (hc : c ∈ l) (hw : isJsWs c = false) :
    jsTrim l ≠ [] := by
  intro h
  have := jsTrim_eq_nil_iff.mp h c hc
  rw [hw] at this
  exact Bool.false_ne_true this

/-! Helper lemmas for the pdfjs page loop. -/

/-- The page-accumulating fold is a flattened map. -/
theorem foldl_append_eq_flatten {α β : Type} (g : β → List α) :
    ∀ (L : List β) (init : List α),
      L.foldl (fun acc x => acc ++ g x) init = init ++ List.flatten (L.map g)
  | [], _ => by simp
  | x :: L, init => by
    simp only [List.foldl_cons, List.map_cons, List.flatten_cons]
    rw [foldl_append_eq_flatten g L (init ++ g x), List.append_assoc]

/-- Newline-separated join of a sequence of page texts, written from the
claim: the pages in order, consecutive pages separated by a single
newline. -/
def newlineSeparated : List (List Char) → List Char
  | [] => []
  | [x] => x
  | x :: y :: rest => x ++ ('\n' :: newlineSeparated (y :: rest))

/-- Appending a newline to every block and flattening equals the
newline-separated join followed by one trailing newline. -/
theorem flatten_map_concat_newline :
    ∀ L : List (List Char), L ≠ [] →
      List.flatten (L.map (fun x => x ++ ['\n'])) = newlineSeparated L ++ ['\n']
  | [], h => absurd rfl h
  | [x], _ => by simp [newlineSeparated]
  | x :: y :: rest, _ => by
    have ih := flatten_map_concat_newline (y :: rest) (by simp)
    simp only [List.map_cons, List.flatten_cons] at ih ⊢
    rw [ih]
    simp [newlineSeparated, List.append_assoc]

/-! Helper lemmas for the bracket-extraction model. -/

/-- Skipping to a character not present in a prefix skips the prefix. -/
theorem dropBefore_append_not_mem {c : Char} {a : List Char} (ha : c ∉ a) (b : List Char) :
    dropBefore c (a ++ b) = dropBefore c b := by
  induction a with
  | nil => rfl
  | cons x xs ih =>
    have hx : ¬x = c := fun h => ha (h ▸ List.mem_cons_self x xs)
    simp only [List.cons_append, dropBefore, if_neg hx]
    exact ih fun h => ha (List.mem_cons_of_mem _ h)

/-- Skipping to the character at the head is the identity. -/
theorem dropBefore_cons_self (c : Char) (t : List Char) :
    dropBefore c (c :: t) = some (c :: t) := by
  simp [dropBefore]

/-- The bracket extraction on a well-bracketed body embedded between a
prefix free of opening brackets and a suffix free of closing brackets
returns exactly the body. -/
theorem extractArr_embedded {p q body : List Char} (hp : '[' ∉ p) (hq : ']' ∉ q)
    {t u : List Char} (hb1 : body = '[' :: t) (hb2 : body.reverse = ']' :: u) :
    extractArr (p ++ body ++ q) = some body := by
  have hqrev : ']' ∉ q.reverse := fun h => hq (List.mem_reverse.mp h)
  have h1 : dropBefore '[' (p ++ body ++ q) = some (body ++ q) := by
    rw [List.append_assoc, dropBefore_append_not_mem hp, hb1, List.cons_append,
      dropBefore_cons_self, ← List.cons_append, ← hb1]
  have h2 : dropBefore ']' ((body ++ q).reverse) = some body.reverse := by
    rw [List.reverse_append, dropBefore_append_not_mem hqrev, hb2, dropBefore_cons_self, ← hb2]
  simp only [extractArr, h1, h2, List.reverse_reverse]

/-! Helper lemmas about filename suffixes. -/

/-- Boolean suffix test agrees with the suffix relation. -/
theorem endsWithL_iff {suf l : List Char} : FileProcessor.endsWithL suf l = true ↔ suf <:+ l := by
  simp [FileProcessor.endsWithL]

/-- A suffix determines the last element. -/
theorem suffix_getLast? {s l : List Char} (h : s <:+ l) (hne : s ≠ []) :
    l.getLast? = s.getLast? := by
  obtain ⟨t, rfl⟩ := h
  exact List.getLast?_append_of_ne_nil t hne

/-- Two suffixes of the same list cannot end in different characters. -/
theorem not_suffix_of_last_ne {s₁ s₂ l : List Char} (h1 : s₁ <:+ l) (h1ne : s₁ ≠ [])
    (h2ne : s₂ ≠ []) (hne : s₁.getLast? ≠ s₂.getLast?) : ¬s₂ <:+ l := by
  intro h2
  exact hne ((suffix_getLast? h1 h1ne).symm.trans (suffix_getLast? h2 h2ne))

/-- A name ending in the DOCX suffix does not end in the PDF suffix. -/
theorem ends_docx_not_pdf {l : List Char}
    (h : FileProcessor.endsWithL (FileProcessor.FileKind.ext .docx) l = true) :
    FileProcessor.endsWithL (FileProcessor.FileKind.ext .pdf) l = false := by
  rw [endsWithL_iff] at h
  apply decide_eq_false
  exact not_suffix_of_last_ne h (by decide) (by decide) (by decide)

/-- A name ending in the TXT suffix does not end in the PDF suffix. -/
theorem ends_txt_not_pdf {l : List Char}
    (h : FileProcessor.endsWithL (FileProcessor.FileKind.ext .txt) l = true) :
    FileProcessor.endsWithL (FileProcessor.FileKind.ext .pdf) l = false := by
  rw [endsWithL_iff] at h
  apply decide_eq_false
  exact not_suffix_of_last_ne h (by decide) (by decide) (by decide)

/-- A name ending in the TXT suffix does not end in the DOCX suffix. -/
theorem ends_txt_not_docx {l : List Char}
    (h : FileProcessor.endsWithL (FileProcessor.FileKind.ext .txt) l = true) :
    FileProcessor.endsWithL (FileProcessor.FileKind.ext .docx) l = false := by
  rw [endsWithL_iff] at h
  apply decide_eq_false
  exact not_suffix_of_last_ne h (by decide) (by decide) (by decide)

/-! Inversion lemmas for the quiz pipeline. -/

/-- A successful validation means the parsed value was a non-empty array,
every element passed the shape check, and the batch is returned whole. -/
theorem validateQuestions_ok {j : Json} {qs : List Json} (h : validateQuestions j = .ok qs) :
    j = .arr qs ∧ qs ≠ [] ∧ qs.all questionOk = true := by
  cases j with
  | arr l =>
    by_cases h0 : l.length = 0
    · have hv : validateQuestions (Json.arr l) = Except.error QuizError.validationFailure := by
        simp [validateQuestions, h0]
      rw [hv] at h
      exact absurd h (by simp)
    · by_cases ha : l.all questionOk = true
      · have hv : validateQuestions (Json.arr l) = Except.ok l := by
          simp [validateQuestions, h0, ha]
        rw [hv] at h
        obtain rfl : l = qs := by simpa using h
        exact ⟨rfl, fun hnil => h0 (by simp [hnil]), ha⟩
      · have hv : validateQuestions (Json.arr l) = Except.error QuizError.validationFailure := by
          simp [validateQuestions, h0, ha]
        rw [hv] at h
        exact absurd h (by simp)
  | null => exact absurd h (by simp [validateQuestions])
  | bool b => exact absurd h (by simp [validateQuestions])
  | num q => exact absurd h (by simp [validateQuestions])
  | str s => exact absurd h (by simp [validateQuestions])
  | obj fs => exact absurd h (by simp [validateQuestions])

/-- A successful reply-text handling passes through bracket extraction,
JSON parsing and validation. -/
theorem handleGeneratedText_ok {s : List Char} {qs : List Json}
    (h : handleGeneratedText s = .ok qs) :
    ∃ sub j, extractArr s = some sub ∧ jsonParse sub = some j ∧
      validateQuestions j = .ok qs := by
  unfold handleGeneratedText at h
  cases he : extractArr s with
  | none =>
    simp only [he] at h
    exact absurd h (by simp)
  | some sub =>
    simp only [he] at h
    cases hj : jsonParse sub with
    | none =>
      simp only [hj] at h
      exact absurd h (by simp)
    | some j =>
      simp only [hj] at h
      exact ⟨sub, j, rfl, hj, h⟩

/-- A successful body handling found a truthy string reply text. -/
theorem handleBody_ok {b : Json} {qs : List Json} (h : handleBody b = .ok qs) :
    ∃ txt, candidateText b = some (.str txt) ∧ txt ≠ [] ∧
      handleGeneratedText txt = .ok qs := by
  unfold handleBody at h
  cases hct : candidateText b with
  | none => simp [hct, truthyOpt] at h
  | some j =>
    cases j with
    | str s =>
      simp only [hct, truthyOpt, Json.truthy] at h
      cases hs : s.isEmpty with
      | true => simp [hs] at h
      | false =>
        simp only [hs, Bool.not_false, if_true] at h
        refine ⟨s, rfl, ?_, by simpa using h⟩
        intro hnil
        subst hnil
        exact absurd hs (by decide)
    | null => simp [hct, truthyOpt, Json.truthy] at h
    | bool bb => cases bb <;> simp [hct, truthyOpt, Json.truthy] at h
    | num q => by_cases hq : q = 0 <;> simp [hct, truthyOpt, Json.truthy, hq] at h
    | arr l => simp [hct, truthyOpt, Json.truthy] at h
    | obj fs => simp [hct, truthyOpt, Json.truthy] at h

/-- A successful pipeline run passed the precondition, got an ok response
and handled its body successfully. -/
theorem generateQuiz_ok {s : QuizSettingsData} {t : List Char} {net : List Char → HttpResponse}
    {qs : List Json} (h : (generateQuiz s t net).1 = .ok qs) :
    (jsTrim t).isEmpty = false ∧ (net (systemPrompt s t)).isOk = true ∧
      handleBody (net (systemPrompt s t)).body = .ok qs := by
  unfold generateQuiz at h
  cases he : (jsTrim t).isEmpty with
  | true =>
    simp only [he, if_true] at h
    exact absurd h (by simp)
  | false =>
    simp only [he, Bool.false_eq_true, if_false] at h
    cases ho : (net (systemPrompt s t)).isOk with
    | false =>
      simp only [ho, Bool.not_false, if_true] at h
      exact absurd h (by simp)
    | true =>
      simp only [ho, Bool.not_true, Bool.false_eq_true, if_false] at h
      exact ⟨rfl, rfl, h⟩

/-! Concrete data shared by the claim instances. -/

/-- Response body wrapping a reply text at the nested path the code
reads. -/
def mkBody (txt : List Char) : Json :=
  Json.obj [("candidates".toList, Json.arr [Json.obj
    [("content".toList, Json.obj [("parts".toList, Json.arr [Json.obj
      [("text".toList, Json.str txt)]])])]])]

/-- Settings record used in concrete runs. -/
def settings0 : QuizSettingsData := ⟨10, "medium".toList, "mcq".toList⟩

/-- An HTTP 200 response carrying a given reply text. -/
def okResp (txt : List Char) : HttpResponse := ⟨200, "OK".toList, mkBody txt⟩

/-- The nested-path extraction on the wrapped body yields the reply
text. -/
theorem candidateText_mkBody (txt : List Char) :
    candidateText (mkBody txt) = some (Json.str txt) := rfl

/-- A non-empty list is not boolean-empty. -/
theorem isEmpty_eq_false_of_ne_nil {l : List Char} (h : l ≠ []) : l.isEmpty = false := by
  cases l with
  | nil => exact absurd rfl h
  | cons a t => rfl

/-- Reply payload named in claim C3. -/
def c3payload : List Char :=
  "[\x7b\"question\":\"Q1\",\"options\":[\"A\",\"B\",\"C\",\"D\"],\"correctAnswerIndex\":1,\"hint\":\"H1\"\x7d]".toList

/-- The single question record parsed from the C3 payload. -/
def c3question : Json :=
  Json.obj [("question".toList, Json.str ("Q1".toList)),
    ("options".toList, Json.arr [Json.str ("A".toList), Json.str ("B".toList),
      Json.str ("C".toList), Json.str ("D".toList)]),
    ("correctAnswerIndex".toList, Json.num 1),
    ("hint".toList, Json.str ("H1".toList))]

/-- C3: for a reply text that embeds the payload
`[{"question":"Q1","options":["A","B","C","D"],"correctAnswerIndex":1,"hint":"H1"}]`
in surrounding prose (no opening bracket before it, no closing bracket
after it), the pipeline locates the substring from the first opening to
the last closing bracket, parses it, and returns exactly the one question
with those fields. -/
theorem c3_embedded_reply_parsed (st : QuizSettingsData) (t p q : List Char)
    (ht : (jsTrim t).isEmpty = false) (hp : '[' ∉ p) (hq : ']' ∉ q) :
    (generateQuiz st t (fun _ => okResp (p ++ c3payload ++ q))).1 = .ok [c3question] := by
  have hne : (p ++ c3payload ++ q) ≠ [] := by
    intro hh
    rcases List.append_eq_nil.mp hh with ⟨hh1, _⟩
    rcases List.append_eq_nil.mp hh1 with ⟨_, hh3⟩
    exact absurd hh3 (by decide)
  have hx : extractArr (p ++ c3payload ++ q) = some c3payload :=
    extractArr_embedded hp hq rfl rfl
  have hgen : handleGeneratedText (p ++ c3payload ++ q) = .ok [c3question] := by
    unfold handleGeneratedText
    rw [hx]
    rfl
  have hbody : handleBody (mkBody (p ++ c3payload ++ q)) = .ok [c3question] := by
    simp only [handleBody, candidateText_mkBody, truthyOpt, Json.truthy,
      isEmpty_eq_false_of_ne_nil hne, Bool.not_false, if_true]
    exact hgen
  have hok : (okResp (p ++ c3payload ++ q)).isOk = true := rfl
  unfold generateQuiz
  rw [ht]
  simp only [Bool.false_eq_true, if_false, hok, Bool.not_true]
  exact hbody

/-- Witness for C3 at concrete prose. -/
theorem c3_embedded_reply_parsed_witness :
    (generateQuiz settings0 ("doc".toList)
      (fun _ => okResp (("Sure! Here is the quiz: ".toList) ++ c3payload ++ (" Enjoy.".toList)))).1
      = .ok [c3question] :=
  c3_embedded_reply_parsed settings0 ("doc".toList) _ _ (by decide) (by decide) (by decide)

/-- Reply payload whose single element passes the code validator while
violating the data-model shape: options are numbers and the answer index
is 9. -/
def c1payload : List Char :=
  "[\x7b\"question\":\"Q\",\"options\":[1,2,3,4],\"correctAnswerIndex\":9,\"hint\":\"H\"\x7d]".toList

/-- The question record the pipeline returns for the C1 payload. -/
def c1returned : Json :=
  Json.obj [("question".toList, Json.str ("Q".toList)),
    ("options".toList, Json.arr [Json.num 1, Json.num 2, Json.num 3, Json.num 4]),
    ("correctAnswerIndex".toList, Json.num 9),
    ("hint".toList, Json.str ("H".toList))]

/-- Question shape constraints of the data model, written from the claim:
the options field is an array of exactly 4 strings and the
correctAnswerIndex is an integer in the inclusive range 0 to 3. -/
def specQuestionShape (j : Json) : Bool :=
  (match j.getField ("options".toList) with
   | some (.arr l) =>
     l.length == 4 && l.all (fun x => match x with | .str _ => true | _ => false)
   | _ => false) &&
  (match j.getField ("correctAnswerIndex".toList) with
   | some (.num r) => r.den == 1 && decide (0 ≤ r.num) && decide (r.num ≤ 3)
   | _ => false)

/-- C1 counterexample: the pipeline accepts and returns a batch whose only
question has numeric options and correctAnswerIndex 9, violating the
claimed shape constraints (options of 4 strings, index an integer in 0 to
3). -/
theorem c1_counterexample_shape_violated :
    (generateQuiz settings0 ("doc".toList) (fun _ => okResp c1payload)).1 = .ok [c1returned]
    ∧ specQuestionShape c1returned = false :=
  ⟨rfl, rfl⟩

/-- Shape actually guaranteed for every returned question, written from
the amended claim: truthy question field, options an array of exactly 4
elements (element types unchecked), correctAnswerIndex of number type
(integrality and range unchecked), truthy hint field. -/
def returnedQuestionShape (j : Json) : Bool :=
  truthyOpt (j.getField ("question".toList)) &&
  (match j.getField ("options".toList) with
   | some (.arr l) => l.length == 4
   | _ => false) &&
  (match j.getField ("correctAnswerIndex".toList) with
   | some (.num _) => true
   | _ => false) &&
  truthyOpt (j.getField ("hint".toList))

/-- C1 (amended): every question in a successfully returned batch passes
the shape the validator actually enforces: truthy question, options an
array of exactly 4 elements, numeric correctAnswerIndex, truthy hint. -/
theorem c1_amended_returned_shape (st : QuizSettingsData) (t : List Char)
    (net : List Char → HttpResponse) (qs : List Json)
    (h : (generateQuiz st t net).1 = .ok qs) :
    ∀ q ∈ qs, returnedQuestionShape q = true := by
  obtain ⟨-, -, hb⟩ := generateQuiz_ok h
  obtain ⟨txt, -, -, hg⟩ := handleBody_ok hb
  obtain ⟨sub, j, -, -, hv⟩ := handleGeneratedText_ok hg
  obtain ⟨-, -, hall⟩ := validateQuestions_ok hv
  intro q hq
  exact List.all_eq_true.mp hall q hq

/-- Witness for the amended C1 at a concrete successful run. -/
theorem c1_amended_returned_shape_witness :
    returnedQuestionShape c3question = true :=
  c1_amended_returned_shape settings0 ("doc".toList) (fun _ => okResp c3payload)
    [c3question] rfl c3question (List.mem_singleton_self _)

/-- Second question of the C2 payload: an options array of length 3. -/
def c2bad : Json :=
  Json.obj [("question".toList, Json.str ("Q2".toList)),
    ("options".toList, Json.arr [Json.str ("A".toList), Json.str ("B".toList),
      Json.str ("C".toList)]),
    ("correctAnswerIndex".toList, Json.num 0),
    ("hint".toList, Json.str ("H2".toList))]

/-- Reply payload of a two-question batch whose second question has only 3
options. -/
def c2payload : List Char :=
  "[\x7b\"question\":\"Q1\",\"options\":[\"A\",\"B\",\"C\",\"D\"],\"correctAnswerIndex\":1,\"hint\":\"H1\"\x7d,\x7b\"question\":\"Q2\",\"options\":[\"A\",\"B\",\"C\"],\"correctAnswerIndex\":0,\"hint\":\"H2\"\x7d]".toList

/-- C2: validation is all-or-nothing. A question sequence is returned only
when the parsed value is a non-empty array whose every element passes the
shape check, and then the whole parsed batch is returned; if any element
fails the shape check, the run fails with the validation-stage error even
when the other elements are valid, so no partial sequence is ever
returned. -/
theorem c2_validation_all_or_nothing (st : QuizSettingsData) (t : List Char)
    (net : List Char → HttpResponse) :
    (∀ qs, (generateQuiz st t net).1 = .ok qs →
      ∃ txt sub l, candidateText (net (systemPrompt st t)).body = some (.str txt) ∧
        extractArr txt = some sub ∧ jsonParse sub = some (.arr l) ∧
        l ≠ [] ∧ l.all questionOk = true ∧ qs = l)
    ∧
    (∀ txt sub l, (jsTrim t).isEmpty = false →
      (net (systemPrompt st t)).isOk = true →
      candidateText (net (systemPrompt st t)).body = some (.str txt) →
      txt ≠ [] → extractArr txt = some sub → jsonParse sub = some (.arr l) →
      l.all questionOk = false →
      (generateQuiz st t net).1 = .error .validationFailure) := by
  constructor
  · intro qs h
    obtain ⟨-, -, hb⟩ := generateQuiz_ok h
    obtain ⟨txt, hct, -, hg⟩ := handleBody_ok hb
    obtain ⟨sub, j, hx, hj, hv⟩ := handleGeneratedText_ok hg
    obtain ⟨hj2, hne, hall⟩ := validateQuestions_ok hv
    rw [hj2] at hj
    exact ⟨txt, sub, qs, hct, hx, hj, hne, hall, rfl⟩
  · intro txt sub l ht hok hct htne hx hj hall
    have hv : validateQuestions (Json.arr l) = .error .validationFailure := by
      by_cases h0 : l.length = 0 <;> simp [validateQuestions, hall, h0]
    have hgen : handleGeneratedText txt = .error .validationFailure := by
      unfold handleGeneratedText
      rw [hx]
      simp only [hj]
      exact hv
    have hbody : handleBody (net (systemPrompt st t)).body = .error .validationFailure := by
      simp only [handleBody, hct, truthyOpt, Json.truthy,
        isEmpty_eq_false_of_ne_nil htne, Bool.not_false, if_true]
      exact hgen
    unfold generateQuiz
    rw [ht]
    simp only [Bool.false_eq_true, if_false, hok, Bool.not_true]
    exact hbody

set_option maxRecDepth 8192 in
/-- Witness for C2: a fully valid single-question batch is returned whole,
and a batch with one 3-option question among valid ones is rejected with
the validation-stage error. -/
theorem c2_validation_all_or_nothing_witness :
    (∃ txt sub l, candidateText (okResp c3payload).body = some (.str txt) ∧
      extractArr txt = some sub ∧ jsonParse sub = some (.arr l) ∧
      l ≠ [] ∧ l.all questionOk = true ∧ [c3question] = l)
    ∧ (generateQuiz settings0 ("doc".toList) (fun _ => okResp c2payload)).1
        = .error .validationFailure := by
  constructor
  · exact (c2_validation_all_or_nothing settings0 ("doc".toList)
      (fun _ => okResp c3payload)).1 [c3question] rfl
  · exact (c2_validation_all_or_nothing settings0 ("doc".toList)
      (fun _ => okResp c2payload)).2 c2payload c2payload [c3question, c2bad]
      (by decide) rfl rfl (by decide) rfl rfl rfl

/-- C4: for every input text that is empty or consists only of whitespace,
the pipeline fails immediately with the empty-input error and the list of
issued requests is empty, for every network oracle — the failure happens
strictly before the single outbound call. -/
theorem c4_empty_input_no_request (st : QuizSettingsData) (t : List Char)
    (net : List Char → HttpResponse) (hw : ∀ c ∈ t, isJsWs c = true) :
    generateQuiz st t net = (.error .emptyInput, []) := by
  have htr : jsTrim t = [] := jsTrim_eq_nil_iff.mpr hw
  unfold generateQuiz
  rw [htr]
  rfl

/-- Witness for C4 on a whitespace-only input. -/
theorem c4_empty_input_no_request_witness :
    generateQuiz settings0 (" \t\n ".toList) (fun _ => okResp c3payload)
      = (.error .emptyInput, []) :=
  c4_empty_input_no_request settings0 (" \t\n ".toList) (fun _ => okResp c3payload) (by decide)

/-- C6: for every response with a status outside the 200 to 299 range, the
pipeline fails with the network-failure error carrying that status (and
status text), whatever the response body contains — the body is never
parsed or validated. -/
theorem c6_non_2xx_network_failure (st : QuizSettingsData) (t : List Char)
    (status : Nat) (statusText : List Char) (body : Json)
    (ht : (jsTrim t).isEmpty = false) (hs : ¬(200 ≤ status ∧ status < 300)) :
    (generateQuiz st t (fun _ => ⟨status, statusText, body⟩)).1
      = .error (.networkFailure status statusText) := by
  have hok : (HttpResponse.mk status statusText body).isOk = false := by
    simp only [HttpResponse.isOk]
    rw [Bool.and_eq_false_iff]
    rcases Nat.lt_or_ge status 200 with hlt | hge
    · exact Or.inl (by simpa using Nat.not_le_of_lt hlt)
    · rcases Nat.lt_or_ge status 300 with hlt2 | hge2
      · exact absurd ⟨hge, hlt2⟩ hs
      · exact Or.inr (by simpa using Nat.not_lt_of_le hge2)
  unfold generateQuiz
  rw [ht]
  simp only [Bool.false_eq_true, if_false, hok, Bool.not_false, if_true]

/-- Witness for C6 at status 500. -/
theorem c6_non_2xx_network_failure_witness :
    (generateQuiz settings0 ("doc".toList)
      (fun _ => ⟨500, "Server Error".toList, mkBody c3payload⟩)).1
      = .error (.networkFailure 500 ("Server Error".toList)) :=
  c6_non_2xx_network_failure settings0 ("doc".toList) 500 ("Server Error".toList)
    (mkBody c3payload) (by decide) (by decide)

/-- The page-accumulating fold of the pdfjs extractor, flattened. -/
theorem foldl_pages_eq_flatten :
    ∀ (pages : List (List (List Char))) (init : List Char),
      pages.foldl (fun acc pg => acc ++ PdfJs.pageText pg ++ ['\n']) init
        = init ++ List.flatten (pages.map (fun pg => PdfJs.pageText pg ++ ['\n']))
  | [], init => by simp
  | x :: rest, init => by
    simp only [List.foldl_cons, List.map_cons, List.flatten_cons]
    rw [foldl_pages_eq_flatten rest]
    simp [List.append_assoc]

/-- C7: the pdfjs PDF extraction equals the trimmed newline-separated join
of the per-page texts (each page text being its items joined by single
spaces): page order is preserved and consecutive pages are separated by a
newline, with leading and trailing whitespace of the final concatenation
trimmed. -/
theorem c7_pdf_pages_newline_separated (pages : List (List (List Char))) :
    PdfJs.extractTextFromPDF pages = jsTrim (newlineSeparated (pages.map PdfJs.pageText)) := by
  cases pages with
  | nil => rfl
  | cons x rest =>
    unfold PdfJs.extractTextFromPDF
    rw [foldl_pages_eq_flatten, List.nil_append]
    have hfl := flatten_map_concat_newline ((x :: rest).map PdfJs.pageText) (by simp)
    rw [List.map_map] at hfl
    rw [show ((fun a => a ++ ['\n']) ∘ PdfJs.pageText)
        = (fun pg => PdfJs.pageText pg ++ ['\n']) from rfl] at hfl
    rw [hfl, jsTrim_append_ws (by decide)]

/-- Trimming fixes the value returned by the pdf-lib PDF branch. -/
theorem trim_fix_pdf_branch (a : List Char) :
    jsTrim (if (jsTrim a).isEmpty then FileProcessor.noTextFallback else jsTrim a)
      = if (jsTrim a).isEmpty then FileProcessor.noTextFallback else jsTrim a := by
  cases h0 : (jsTrim a).isEmpty with
  | true => simp only [h0, if_true]; decide
  | false => simp only [h0, Bool.false_eq_true, if_false]; exact jsTrim_idem a

/-- A successful pdf-lib PDF extraction returns a trim-fixed string. -/
theorem extractTextFromPDF_pdflib_trimmed {d : Except (List Char) FileProcessor.PdfLibDoc}
    {t : List Char} (h : FileProcessor.extractTextFromPDF d = .ok t) : jsTrim t = t := by
  cases d with
  | error e => simp [FileProcessor.extractTextFromPDF] at h
  | ok doc =>
    simp only [FileProcessor.extractTextFromPDF] at h
    replace h := Except.ok.inj h
    subst h
    exact trim_fix_pdf_branch _

/-- A successful DOCX extraction returns a trim-fixed string. -/
theorem extractTextFromDOCX_trimmed {d : Except (List Char) (List Char)}
    {t : List Char} (h : FileProcessor.extractTextFromDOCX d = .ok t) : jsTrim t = t := by
  cases d with
  | error e => simp [FileProcessor.extractTextFromDOCX] at h
  | ok v =>
    simp only [FileProcessor.extractTextFromDOCX] at h
    replace h := Except.ok.inj h
    subst h
    exact jsTrim_idem v

/-- A successful TXT extraction returns a trim-fixed string. -/
theorem extractTextFromTXT_trimmed {d : Except (List Char) (List Char)}
    {t : List Char} (h : FileProcessor.extractTextFromTXT d = .ok t) : jsTrim t = t := by
  cases d with
  | error e => simp [FileProcessor.extractTextFromTXT] at h
  | ok v =>
    simp only [FileProcessor.extractTextFromTXT] at h
    replace h := Except.ok.inj h
    subst h
    exact jsTrim_idem v

/-- C8: every text successfully returned by the extractor equals its own
trim — for the pdf-lib based file processor on any supported input, and
likewise for the pdfjs PDF extractor variant. -/
theorem c8_extracted_text_trimmed :
    (∀ (env : FileProcessor.FileEnv) (ftype fname t : List Char),
      FileProcessor.extractTextFromFile env ftype fname = .ok t → jsTrim t = t)
    ∧ (∀ pages : List (List (List Char)),
        jsTrim (PdfJs.extractTextFromPDF pages) = PdfJs.extractTextFromPDF pages) := by
  constructor
  · intro env ftype fname t h
    cases hsel : FileProcessor.selectReader ftype fname with
    | none =>
      simp only [FileProcessor.extractTextFromFile, hsel] at h
      exact absurd h (by simp)
    | some k =>
      cases k with
      | pdf =>
        simp only [FileProcessor.extractTextFromFile, hsel] at h
        cases hi : FileProcessor.extractTextFromPDF env.pdfDoc with
        | error e =>
          simp only [hi] at h
          exact absurd h (by simp)
        | ok u =>
          simp only [hi] at h
          obtain rfl : u = t := by simpa using h
          exact extractTextFromPDF_pdflib_trimmed hi
      | docx =>
        simp only [FileProcessor.extractTextFromFile, hsel] at h
        cases hi : FileProcessor.extractTextFromDOCX env.docxRaw with
        | error e =>
          simp only [hi] at h
          exact absurd h (by simp)
        | ok u =>
          simp only [hi] at h
          obtain rfl : u = t := by simpa using h
          exact extractTextFromDOCX_trimmed hi
      | txt =>
        simp only [FileProcessor.extractTextFromFile, hsel] at h
        cases hi : FileProcessor.extractTextFromTXT env.txtRead with
        | error e =>
          simp only [hi] at h
          exact absurd h (by simp)
        | ok u =>
          simp only [hi] at h
          obtain rfl : u = t := by simpa using h
          exact extractTextFromTXT_trimmed hi
  · intro pages
    unfold PdfJs.extractTextFromPDF
    exact jsTrim_idem _

/-- Witness for C8: a concrete TXT extraction returns the trimmed text,
which is fixed under trimming. -/
theorem c8_extracted_text_trimmed_witness :
    jsTrim ("hi".toList) = ("hi".toList) ∧
      FileProcessor.extractTextFromFile
        ⟨.error ("no pdf".toList), .error ("no docx".toList), .ok (" hi \t".toList)⟩
        ("text/plain".toList) ("notes.txt".toList) = .ok ("hi".toList) :=
  ⟨c8_extracted_text_trimmed.1
    ⟨.error ("no pdf".toList), .error ("no docx".toList), .ok (" hi \t".toList)⟩
    ("text/plain".toList) ("notes.txt".toList) ("hi".toList) rfl, rfl⟩

/-- C9: when the lowercased filename suffix matches a format strictly
earlier in the PDF, DOCX, TXT priority than the format of the declared
MIME type, the dispatch selects the earlier format: its suffix test sits
in an earlier branch than the MIME test that would otherwise match. -/
theorem c9_extension_priority_beats_mime (a b : FileProcessor.FileKind)
    (name : List Char) (hrank : b.rank < a.rank)
    (hext : FileProcessor.endsWithL b.ext (jsToLower name) = true) :
    FileProcessor.selectReader a.mime name = some b := by
  cases a with
  | pdf => exact absurd hrank (by cases b <;> decide)
  | docx =>
    cases b with
    | pdf => simp [FileProcessor.selectReader, hext]
    | docx => exact absurd hrank (by decide)
    | txt => exact absurd hrank (by decide)
  | txt =>
    cases b with
    | pdf => simp [FileProcessor.selectReader, hext]
    | docx =>
      have h1 : (FileProcessor.FileKind.mime .txt == FileProcessor.FileKind.mime .pdf) = false := by
        decide
      have h2 : (FileProcessor.FileKind.mime .txt == FileProcessor.FileKind.mime .docx) = false := by
        decide
      simp [FileProcessor.selectReader, hext, ends_docx_not_pdf hext, h1, h2]
    | txt => exact absurd hrank (by decide)

/-- Witness for C9: MIME type text/plain with a filename ending in .pdf is
dispatched to the PDF reader. -/
theorem c9_extension_priority_beats_mime_witness :
    FileProcessor.selectReader (FileProcessor.FileKind.mime .txt) ("notes.pdf".toList)
      = some .pdf :=
  c9_extension_priority_beats_mime .txt .pdf ("notes.pdf".toList) (by decide) (by decide)

/-- Extractor environment whose PDF reader fails to load, used by the C5
counterexample. -/
def c5env : FileProcessor.FileEnv :=
  ⟨.error ("load failed".toList), .ok ("docx text".toList), .ok ("txt text".toList)⟩

/-- C5 counterexample: an input matching none of the three formats fails
with exactly the same surfaced error as a PDF input whose extraction
fails — the internal unsupported-type error is replaced by the catch-all,
so the error kind is not distinct from an extraction failure. -/
theorem c5_counterexample_error_not_distinct :
    FileProcessor.extractTextFromFile c5env ("image/png".toList) ("photo.png".toList)
      = FileProcessor.extractTextFromFile c5env ("application/pdf".toList) ("doc.pdf".toList)
    ∧ FileProcessor.extractTextFromFile c5env ("image/png".toList) ("photo.png".toList)
      = .error FileProcessor.genericFailMsg :=
  ⟨rfl, rfl⟩

/-- C5 (amended): the dispatch selects the reader by declared MIME type or
lowercased filename suffix in the priority PDF, DOCX, TXT, as listed
branch by branch below; an input matching none of the three formats is
dispatched to no reader and the extraction fails — with the same generic
failure message as an extraction failure, since the catch-all replaces the
internal unsupported-type error. -/
theorem c5_amended_dispatch :
    (∀ name : List Char,
      FileProcessor.selectReader (FileProcessor.FileKind.mime .pdf) name = some .pdf)
    ∧ (∀ ftype name : List Char,
        FileProcessor.endsWithL (FileProcessor.FileKind.ext .pdf) (jsToLower name) = true →
        FileProcessor.selectReader ftype name = some .pdf)
    ∧ (∀ name : List Char,
        FileProcessor.endsWithL (FileProcessor.FileKind.ext .pdf) (jsToLower name) = false →
        FileProcessor.selectReader (FileProcessor.FileKind.mime .docx) name = some .docx)
    ∧ (∀ ftype name : List Char, ftype ≠ FileProcessor.FileKind.mime .pdf →
        FileProcessor.endsWithL (FileProcessor.FileKind.ext .docx) (jsToLower name) = true →
        FileProcessor.selectReader ftype name = some .docx)
    ∧ (∀ name : List Char,
        FileProcessor.endsWithL (FileProcessor.FileKind.ext .pdf) (jsToLower name) = false →
        FileProcessor.endsWithL (FileProcessor.FileKind.ext .docx) (jsToLower name) = false →
        FileProcessor.selectReader (FileProcessor.FileKind.mime .txt) name = some .txt)
    ∧ (∀ ftype name : List Char, ftype ≠ FileProcessor.FileKind.mime .pdf →
        ftype ≠ FileProcessor.FileKind.mime .docx →
        FileProcessor.endsWithL (FileProcessor.FileKind.ext .txt) (jsToLower name) = true →
        FileProcessor.selectReader ftype name = some .txt)
    ∧ (∀ (env : FileProcessor.FileEnv) (ftype name : List Char),
        (∀ k : FileProcessor.FileKind, ftype ≠ k.mime) →
        (∀ k : FileProcessor.FileKind,
          FileProcessor.endsWithL k.ext (jsToLower name) = false) →
        FileProcessor.selectReader ftype name = none ∧
          FileProcessor.extractTextFromFile env ftype name
            = .error FileProcessor.genericFailMsg) := by
  refine ⟨?_, ?_, ?_, ?_, ?_, ?_, ?_⟩
  · intro name
    simp [FileProcessor.selectReader]
  · intro ftype name hext
    simp [FileProcessor.selectReader, hext]
  · intro name hext
    have h1 : (FileProcessor.FileKind.mime .docx == FileProcessor.FileKind.mime .pdf) = false := by
      decide
    simp [FileProcessor.selectReader, hext, h1]
  · intro ftype name hne hext
    have h1 : (ftype == FileProcessor.FileKind.mime .pdf) = false := by
      exact beq_eq_false_iff_ne.mpr hne
    simp [FileProcessor.selectReader, h1, ends_docx_not_pdf hext, hext]
  · intro name hext1 hext2
    have h1 : (FileProcessor.FileKind.mime .txt == FileProcessor.FileKind.mime .pdf) = false := by
      decide
    have h2 : (FileProcessor.FileKind.mime .txt == FileProcessor.FileKind.mime .docx) = false := by
      decide
    simp [FileProcessor.selectReader, hext1, hext2, h1, h2]
  · intro ftype name hne1 hne2 hext
    have h1 : (ftype == FileProcessor.FileKind.mime .pdf) = false := beq_eq_false_iff_ne.mpr hne1
    have h2 : (ftype == FileProcessor.FileKind.mime .docx) = false := beq_eq_false_iff_ne.mpr hne2
    simp [FileProcessor.selectReader, h1, h2, ends_txt_not_pdf hext, ends_txt_not_docx hext, hext]
  · intro env ftype name hm hext
    have h1 : (ftype == FileProcessor.FileKind.mime .pdf) = false := beq_eq_false_iff_ne.mpr (hm .pdf)
    have h2 : (ftype == FileProcessor.FileKind.mime .docx) = false := beq_eq_false_iff_ne.mpr (hm .docx)
    have h3 : (ftype == FileProcessor.FileKind.mime .txt) = false := beq_eq_false_iff_ne.mpr (hm .txt)
    have hsel : FileProcessor.selectReader ftype name = none := by
      simp [FileProcessor.selectReader, h1, h2, h3, hext .pdf, hext .docx, hext .txt]
    refine ⟨hsel, ?_⟩
    simp [FileProcessor.extractTextFromFile, hsel]

/-- Witness for the amended C5: each dispatch branch at a concrete input,
and the unmatched case surfacing the generic failure. -/
theorem c5_amended_dispatch_witness :
    FileProcessor.selectReader (FileProcessor.FileKind.mime .pdf) ("a.bin".toList) = some .pdf
    ∧ FileProcessor.selectReader ("image/png".toList) ("b.PDF".toList) = some .pdf
    ∧ FileProcessor.selectReader (FileProcessor.FileKind.mime .docx) ("c.bin".toList) = some .docx
    ∧ FileProcessor.selectReader ("image/png".toList) ("d.docx".toList) = some .docx
    ∧ FileProcessor.selectReader (FileProcessor.FileKind.mime .txt) ("e.bin".toList) = some .txt
    ∧ FileProcessor.selectReader ("image/png".toList) ("f.txt".toList) = some .txt
    ∧ FileProcessor.selectReader ("image/png".toList) ("g.png".toList) = none
    ∧ FileProcessor.extractTextFromFile c5env ("image/png".toList) ("g.png".toList)
        = .error FileProcessor.genericFailMsg :=
  ⟨c5_amended_dispatch.1 ("a.bin".toList),
   c5_amended_dispatch.2.1 ("image/png".toList) ("b.PDF".toList) (by decide),
   c5_amended_dispatch.2.2.1 ("c.bin".toList) (by decide),
   c5_amended_dispatch.2.2.2.1 ("image/png".toList) ("d.docx".toList) (by decide) (by decide),
   c5_amended_dispatch.2.2.2.2.1 ("e.bin".toList) (by decide) (by decide),
   c5_amended_dispatch.2.2.2.2.2.1 ("image/png".toList) ("f.txt".toList) (by decide) (by decide)
     (by decide),
   (c5_amended_dispatch.2.2.2.2.2.2 c5env ("image/png".toList) ("g.png".toList)
     (by intro k; cases k <;> decide) (by intro k; cases k <;> decide)).1,
   (c5_amended_dispatch.2.2.2.2.2.2 c5env ("image/png".toList) ("g.png".toList)
     (by intro k; cases k <;> decide) (by intro k; cases k <;> decide)).2⟩

/-- C10: for every successfully loaded PDF whose form text-field text trims
to empty, the pdf-lib extractor does not fail and returns the non-empty
trimmed placeholder text, which states the page count and the per-page
dimensions of at most the first 5 pages. -/
theorem c10_pdflib_placeholder (doc : FileProcessor.PdfLibDoc)
    (hform : jsTrim (List.flatten (doc.textFieldTexts.map (fun t => t ++ [' ']))) = []) :
    FileProcessor.extractTextFromPDF (.ok doc)
      = .ok (jsTrim (FileProcessor.placeholderText doc))
    ∧ jsTrim (FileProcessor.placeholderText doc) ≠ [] := by
  have hmem : 'P' ∈ FileProcessor.placeholderText doc := by
    unfold FileProcessor.placeholderText
    exact List.mem_append_left _ (List.mem_append_left _ (List.mem_append_left _ (by decide)))
  have hne : jsTrim (FileProcessor.placeholderText doc) ≠ [] :=
    jsTrim_ne_nil hmem (by decide)
  refine ⟨?_, hne⟩
  simp only [FileProcessor.extractTextFromPDF]
  rw [hform]
  simp only [List.isEmpty_nil, if_true]
  rw [isEmpty_eq_false_of_ne_nil hne]
  simp

/-- Witness for C10 on a one-page document without form fields. -/
theorem c10_pdflib_placeholder_witness :
    FileProcessor.extractTextFromPDF (.ok ⟨[], [(612, 792)]⟩)
      = .ok (jsTrim (FileProcessor.placeholderText ⟨[], [(612, 792)]⟩))
    ∧ jsTrim (FileProcessor.placeholderText ⟨[], [(612, 792)]⟩) ≠ [] :=
  c10_pdflib_placeholder ⟨[], [(612, 792)]⟩ rfl
